import Mathlib

/-!
Shallow embedding of the pixel-wise image-processing kernels of
`src/extra_foam/include/f_imageproc.hpp` (namespace `foam`).

Floating-point pixel values are modelled by `FVal`: either the NaN sentinel
or an exact rational.  Comparisons with NaN are false and arithmetic with NaN
propagates NaN, mirroring IEEE semantics for the operations the kernels use
(no infinities or signed zeros arise in the statements proved here).

Images, masks and image stacks are modelled functionally: a structure holding
the shape and a total pixel function.  An in-place C++ kernel becomes a
function from the old buffers to the new buffers; a kernel that throws
(`checkShape`, `count == 0`, empty `keep`) returns `some errorMessage`
together with the buffers it would have left behind — the error branches
return the input buffers untouched exactly because the C++ `throw` occurs
before the write loop.
-/

namespace Foam

/-- A floating-point pixel value: the NaN sentinel or an exact rational. -/
inductive FVal where
  | nan : FVal
  | val : ℚ → FVal
deriving DecidableEq, Repr

namespace FVal

/-- Embedding of `std::isnan`. -/
def isnan : FVal → Bool
  | .nan => true
  | .val _ => false

/-- IEEE addition restricted to finite values and NaN. -/
def add : FVal → FVal → FVal
  | .val a, .val b => .val (a + b)
  | _, _ => .nan

/-- IEEE subtraction restricted to finite values and NaN. -/
def sub : FVal → FVal → FVal
  | .val a, .val b => .val (a - b)
  | _, _ => .nan

/-- IEEE multiplication restricted to finite values and NaN. -/
def mul : FVal → FVal → FVal
  | .val a, .val b => .val (a * b)
  | _, _ => .nan

/-- Division of a pixel value by a scalar; NaN when the numerator is NaN or
the divisor is zero (the kernels only ever divide by a positive count). -/
def divq : FVal → ℚ → FVal
  | .nan, _ => .nan
  | .val a, q => if q = 0 then .nan else .val (a / q)

/-- Embedding of `v < lb` against a finite threshold: false when `v` is NaN. -/
def ltq : FVal → ℚ → Bool
  | .nan, _ => false
  | .val a, q => decide (a < q)

/-- Embedding of `v > ub` against a finite threshold: false when `v` is NaN. -/
def gtq : FVal → ℚ → Bool
  | .nan, _ => false
  | .val a, q => decide (a > q)

/-- The rational carried by a finite value (junk 0 on NaN; only applied to
values already filtered to be non-NaN). -/
def toq : FVal → ℚ
  | .nan => 0
  | .val a => a

end FVal

/-- A 2D image buffer: shape (h, w) and a pixel function. -/
@[ext]
structure Image where
  h : Nat
  w : Nat
  pix : Nat → Nat → FVal

/-- A 2D boolean mask buffer. -/
@[ext]
structure Mask where
  h : Nat
  w : Nat
  pix : Nat → Nat → Bool

/-- A 3D stack of images: shape (n, h, w) and a pixel function. -/
@[ext]
structure Stack where
  n : Nat
  h : Nat
  w : Nat
  pix : Nat → Nat → Nat → FVal

/-- Embedding of `maskImageDataZero(E& src, T lb, T ub)` (Image overload,
f_imageproc.hpp lines 235-251): in place, a pixel that is NaN, below `lb` or
above `ub` is set to 0; pixels outside the image shape are never touched. -/
def maskImageDataZero_thresh (src : Image) (lb ub : ℚ) : Image :=
  { src with pix := fun j k =>
      if j < src.h ∧ k < src.w then
        let v := src.pix j k
        if v.isnan || v.ltq lb || v.gtq ub then .val 0 else v
      else src.pix j k }

/-- Embedding of `maskImageDataZero(E& src, const M& mask)` (Image overload,
f_imageproc.hpp lines 354-371): `checkShape` raises on a shape mismatch before
the loop; otherwise, in place, a pixel where the mask is true or the pixel is
NaN is set to 0.  The first component is the thrown error message, if any; the
second is the post-state of `src`. -/
def maskImageDataZero_mask (src : Image) (mask : Mask) : Option String × Image :=
  if ¬ (src.h = mask.h ∧ src.w = mask.w) then
    (some "Image and mask have different shapes", src)
  else
    (none,
     { src with pix := fun j k =>
         if j < src.h ∧ k < src.w then
           if mask.pix j k || (src.pix j k).isnan then .val 0 else src.pix j k
         else src.pix j k })

/-- Embedding of `maskImageDataNan(E& src, const M& mask)` (Image overload,
f_imageproc.hpp lines 411-428): after the shape check, in place, a pixel where
the mask is true is set to NaN; every other pixel is left untouched. -/
def maskImageDataNan_mask (src : Image) (mask : Mask) : Option String × Image :=
  if ¬ (src.h = mask.h ∧ src.w = mask.w) then
    (some "Image and mask have different shapes", src)
  else
    (none,
     { src with pix := fun j k =>
         if j < src.h ∧ k < src.w then
           if mask.pix j k then .nan else src.pix j k
         else src.pix j k })

/-- Embedding of `maskImageDataZero(E& src, const M& mask, T lb, T ub, N& out)`
(f_imageproc.hpp lines 507-537): two shape checks, then per pixel: a mask-true
pixel is zeroed and recorded; otherwise a pixel that is NaN, below `lb` or
above `ub` is zeroed and recorded; otherwise both buffers keep their old
values.  The components are the thrown error message (if any) and the
post-states of `src` and `out`. -/
def maskImageDataZero_mto (src : Image) (mask : Mask) (lb ub : ℚ) (out : Mask) :
    Option String × Image × Mask :=
  if ¬ (src.h = mask.h ∧ src.w = mask.w) then
    (some "Image and mask have different shapes", src, out)
  else if ¬ (src.h = out.h ∧ src.w = out.w) then
    (some "Image and output array have different shapes", src, out)
  else
    (none,
     { src with pix := fun j k =>
         if j < src.h ∧ k < src.w then
           if mask.pix j k then .val 0
           else
             let v := src.pix j k
             if v.isnan || v.ltq lb || v.gtq ub then .val 0 else v
         else src.pix j k },
     { out with pix := fun j k =>
         if j < src.h ∧ k < src.w then
           if mask.pix j k then true
           else
             let v := src.pix j k
             if v.isnan || v.ltq lb || v.gtq ub then true else out.pix j k
         else out.pix j k })

/-- Embedding of `maskImageDataNan(E& src, const M& mask, T lb, T ub, N& out)`
(f_imageproc.hpp lines 581-611): two shape checks, then per pixel, in this
order: a mask-true pixel is set to NaN and recorded; otherwise an
already-NaN pixel is recorded but its value is not touched; otherwise an
out-of-threshold pixel is set to NaN and recorded; otherwise both buffers
keep their old values. -/
def maskImageDataNan_mto (src : Image) (mask : Mask) (lb ub : ℚ) (out : Mask) :
    Option String × Image × Mask :=
  if ¬ (src.h = mask.h ∧ src.w = mask.w) then
    (some "Image and mask have different shapes", src, out)
  else if ¬ (src.h = out.h ∧ src.w = out.w) then
    (some "Image and output array have different shapes", src, out)
  else
    (none,
     { src with pix := fun j k =>
         if j < src.h ∧ k < src.w then
           let v := src.pix j k
           if mask.pix j k then .nan
           else if v.isnan then v
           else if v.ltq lb || v.gtq ub then .nan
           else v
         else src.pix j k },
     { out with pix := fun j k =>
         if j < src.h ∧ k < src.w then
           let v := src.pix j k
           if mask.pix j k then true
           else if v.isnan then true
           else if v.ltq lb || v.gtq ub then true
           else out.pix j k
         else out.pix j k })

/-- Embedding of `movingAvgImageData(E& src, const E& data, size_t count)`
(Image overload, f_imageproc.hpp lines 930-947): `count == 0` raises, then the
shape check raises, both before the loop; otherwise, in place,
`src += (data - src) / count` per pixel. -/
def movingAvgImageData (src data : Image) (count : Nat) : Option String × Image :=
  if count = 0 then (some "count cannot be zero", src)
  else if ¬ (src.h = data.h ∧ src.w = data.w) then
    (some "Inconsistent data shapes", src)
  else
    (none,
     { src with pix := fun j k =>
         if j < src.h ∧ k < src.w then
           (src.pix j k).add (((data.pix j k).sub (src.pix j k)).divq count)
         else src.pix j k })

/-- Embedding of `movingAvgImageData(E& src, const E& data, size_t count)`
(ImageArray overload, f_imageproc.hpp lines 956-992), identical recurrence per
stack element. -/
def movingAvgImageDataStack (src data : Stack) (count : Nat) : Option String × Stack :=
  if count = 0 then (some "count cannot be zero", src)
  else if ¬ (src.n = data.n ∧ src.h = data.h ∧ src.w = data.w) then
    (some "Inconsistent data shapes", src)
  else
    (none,
     { src with pix := fun i j k =>
         if i < src.n ∧ j < src.h ∧ k < src.w then
           (src.pix i j k).add (((data.pix i j k).sub (src.pix i j k)).divq count)
         else src.pix i j k })

/-- Embedding of `correctImageData(E& src, const E& gain, const E& offset)`
(Image overload, f_imageproc.hpp lines 1127-1142): two shape checks, then, in
place, `src = gain * (src - offset)` per pixel. -/
def correctImageData (src gain offset : Image) : Option String × Image :=
  if ¬ (src.h = gain.h ∧ src.w = gain.w) then
    (some "data and gain constants have different shapes", src)
  else if ¬ (src.h = offset.h ∧ src.w = offset.w) then
    (some "data and offset constants have different shapes", src)
  else
    (none,
     { src with pix := fun j k =>
         if j < src.h ∧ k < src.w then
           (gain.pix j k).mul ((src.pix j k).sub (offset.pix j k))
         else src.pix j k })

/-- Embedding of `correctImageData(E& src, const E& gain, const E& offset)`
(ImageArray overload, f_imageproc.hpp lines 1084-1118), identical formula per
stack element. -/
def correctImageDataStack (src gain offset : Stack) : Option String × Stack :=
  if ¬ (src.n = gain.n ∧ src.h = gain.h ∧ src.w = gain.w) then
    (some "data and gain constants have different shapes", src)
  else if ¬ (src.n = offset.n ∧ src.h = offset.h ∧ src.w = offset.w) then
    (some "data and offset constants have different shapes", src)
  else
    (none,
     { src with pix := fun i j k =>
         if i < src.n ∧ j < src.h ∧ k < src.w then
           (gain.pix i j k).mul ((src.pix i j k).sub (offset.pix i j k))
         else src.pix i j k })

/-- Per-pixel accumulator of `detail::nanmeanImageArrayImp` (f_imageproc.hpp
lines 54-78): fold over the selected frame values, counting and summing the
non-NaN ones. -/
def nanAcc (vs : List FVal) : Nat × ℚ :=
  vs.foldl
    (fun p v =>
      match v with
      | FVal.nan => p
      | FVal.val q => (p.1 + 1, p.2 + q))
    (0, 0)

/-- Embedding of `detail::nanmeanImageArrayImp(E&& src, keep)` (f_imageproc.hpp
lines 36-89, the TBB path): per output pixel, iterate over all frames when
`keep` is empty and over the indices of `keep` otherwise, skipping NaN values;
if no value was counted the pixel is NaN, otherwise it is sum / count. -/
def nanmeanImageArrayImp (src : Stack) (keep : List Nat) : Image :=
  { h := src.h, w := src.w,
    pix := fun j k =>
      let idx := if keep.isEmpty then List.range src.n else keep
      let p := nanAcc (idx.map fun i => src.pix i j k)
      if p.1 = 0 then FVal.nan else FVal.val (p.2 / (p.1 : ℚ)) }

/-- Embedding of `nanmeanImageArray(E&& src, const std::vector<size_t>& keep)`
(f_imageproc.hpp lines 101-112, the TBB path): an empty `keep` raises an
invalid-argument error; otherwise the detail implementation runs on `keep`. -/
def nanmeanImageArrayKeep (src : Stack) (keep : List Nat) : Except String Image :=
  if keep.isEmpty then .error "keep cannot be empty!"
  else .ok (nanmeanImageArrayImp src keep)

/-- Embedding of `nanmeanImageArray(E&& src)` (f_imageproc.hpp lines 114-123,
the TBB path): the detail implementation on the default empty `keep`, meaning
all frames. -/
def nanmeanImageArrayAll (src : Stack) : Image :=
  nanmeanImageArrayImp src []

/-- The NaN-skipping mean of a list of values: drop the NaN entries; if none
remain the result is NaN, otherwise the exact arithmetic mean of the rest. -/
def filterMean (vs : List FVal) : FVal :=
  let ws := vs.filter fun v => !v.isnan
  if ws.isEmpty then FVal.nan
  else FVal.val ((ws.map FVal.toq).sum / (ws.length : ℚ))

/-- Modelled from the spec: the non-TBB fallback of the keep-selecting
`nanmeanImageArray` (f_imageproc.hpp lines 107-110) delegates to the external
`xt::view`/`xt::nanmean` with no non-emptiness check; per output pixel it is
the NaN-skipping mean over the frames selected by `keep`, NaN when nothing is
selected or every selected value is NaN. -/
def nanmeanImageArrayKeepSeq (src : Stack) (keep : List Nat) : Image :=
  { h := src.h, w := src.w,
    pix := fun j k => filterMean (keep.map fun i => src.pix i j k) }

/-- Modelled from the spec: the non-TBB fallback of the all-frames
`nanmeanImageArray` (f_imageproc.hpp lines 119-121) delegates to the external
`xt::nanmean` over axis 0; per output pixel it is the NaN-skipping mean over
all frames. -/
def nanmeanImageArrayAllSeq (src : Stack) : Image :=
  { h := src.h, w := src.w,
    pix := fun j k => filterMean ((List.range src.n).map fun i => src.pix i j k) }

/-- Embedding of `nanmeanImageArray(E&& src1, E&& src2)` (f_imageproc.hpp
lines 132-170, the TBB path): a shape check, then per pixel: both NaN gives
NaN, exactly one NaN gives the other value, and otherwise `0.5 * (x + y)`. -/
def nanmeanTwoImages (a b : Image) : Except String Image :=
  if ¬ (a.h = b.h ∧ a.w = b.w) then .error "Images have different shapes"
  else
    .ok { h := a.h, w := a.w,
          pix := fun j k =>
            let x := a.pix j k
            let y := b.pix j k
            if x.isnan && y.isnan then FVal.nan
            else if x.isnan then y
            else if y.isnan then x
            else (FVal.val (1 / 2)).mul (x.add y) }

/-- Embedding of `maskImageDataZero(E& src)` (ImageArray overload,
f_imageproc.hpp lines 618-643, the TBB path): every in-range NaN element is
set to 0. -/
def maskImageDataZeroStack (src : Stack) : Stack :=
  { src with pix := fun i j k =>
      if i < src.n ∧ j < src.h ∧ k < src.w then
        if (src.pix i j k).isnan then .val 0 else src.pix i j k
      else src.pix i j k }

/-- Embedding of `xt::filter(src, cond) = c` over a whole stack expression:
every element satisfying the condition is replaced by the constant. -/
def xtFilterAssign (src : Stack) (cond : FVal → Bool) (c : FVal) : Stack :=
  { src with pix := fun i j k => if cond (src.pix i j k) then c else src.pix i j k }

/-- Embedding of the non-TBB branch of `maskImageDataZero(E& src)` (ImageArray
overload, f_imageproc.hpp line 641): `xt::filter(src, xt::isnan(src)) = 0`. -/
def maskImageDataZeroStackSeq (src : Stack) : Stack :=
  xtFilterAssign src (fun v => v.isnan) (.val 0)

/-- Embedding of `maskImageDataNan(E& src, T lb, T ub)` (ImageArray overload,
f_imageproc.hpp lines 698-724, the TBB path): NaN elements are skipped;
an element below `lb` or above `ub` is set to NaN. -/
def maskImageDataNanThreshStack (src : Stack) (lb ub : ℚ) : Stack :=
  { src with pix := fun i j k =>
      if i < src.n ∧ j < src.h ∧ k < src.w then
        let v := src.pix i j k
        if v.isnan then v
        else if v.ltq lb || v.gtq ub then .nan
        else v
      else src.pix i j k }

/-- Embedding of the non-TBB branch of `maskImageDataNan(E& src, T lb, T ub)`
(ImageArray overload, f_imageproc.hpp line 726):
`xt::filter(src, src < lb | src > ub) = nan`, where comparisons against a NaN
element are false. -/
def maskImageDataNanThreshStackSeq (src : Stack) (lb ub : ℚ) : Stack :=
  xtFilterAssign src (fun v => v.ltq lb || v.gtq ub) .nan

/-- A concrete 1x1 image holding a single rational value. -/
def exImg1 (q : ℚ) : Image :=
  { h := 1, w := 1, pix := fun _ _ => FVal.val q }

/-- A concrete 1x1 image holding NaN. -/
def exImg1Nan : Image :=
  { h := 1, w := 1, pix := fun _ _ => FVal.nan }

/-- The spec's 1x2 example image with values 5 and 50. -/
def exImg12 : Image :=
  { h := 1, w := 2, pix := fun _ k => if k = 0 then FVal.val 5 else FVal.val 50 }

/-- The spec's 1x2 example mask, true at column 0 only. -/
def exMask12 : Mask :=
  { h := 1, w := 2, pix := fun _ k => decide (k = 0) }

/-- A 1x2 all-false output mask. -/
def exOut12 : Mask :=
  { h := 1, w := 2, pix := fun _ _ => false }

/-- The spec's example frame stack: a 1x1 pixel over frames 1, NaN, 3. -/
def exStack3 : Stack :=
  { n := 3, h := 1, w := 1,
    pix := fun i _ _ =>
      if i = 0 then FVal.val 1 else if i = 1 then FVal.nan else FVal.val 3 }

/-- Unfolding the per-pixel accumulator with an arbitrary start state: it adds
the number and the sum of the non-NaN entries. -/
theorem nanAcc_foldl (vs : List FVal) (c : Nat) (s : ℚ) :
    vs.foldl
        (fun p v =>
          match v with
          | FVal.nan => p
          | FVal.val q => (p.1 + 1, p.2 + q))
        (c, s)
      = (c + (vs.filter fun v => !v.isnan).length,
         s + ((vs.filter fun v => !v.isnan).map FVal.toq).sum) := by
  induction vs generalizing c s with
  | nil => simp
  | cons v vs ih =>
    cases v with
    | nan =>
      simpa [FVal.isnan] using ih c s
    | val q =>
      have h := ih (c + 1) (s + q)
      simp only [List.foldl_cons] at *
      rw [h]
      simp [FVal.isnan, FVal.toq]
      constructor
      · omega
      · ring

/-- The per-pixel accumulator counts and sums exactly the non-NaN entries. -/
theorem nanAcc_eq (vs : List FVal) :
    nanAcc vs = ((vs.filter fun v => !v.isnan).length,
                 ((vs.filter fun v => !v.isnan).map FVal.toq).sum) := by
  have h := nanAcc_foldl vs 0 0
  simpa [nanAcc] using h

/-- A pixel of the detail nanmean implementation is the NaN-skipping mean of
the selected frame values. -/
theorem nanmeanImageArrayImp_pix (src : Stack) (keep : List Nat) (j k : Nat) :
    (nanmeanImageArrayImp src keep).pix j k =
      filterMean ((if keep.isEmpty then List.range src.n else keep).map
        fun i => src.pix i j k) := by
  simp only [nanmeanImageArrayImp, filterMean, nanAcc_eq]
  set ws := (((if keep.isEmpty then List.range src.n else keep).map
    fun i => src.pix i j k).filter fun v => !v.isnan) with hws
  by_cases hlen : ws.length = 0
  · have hnil : ws = [] := List.length_eq_zero.mp hlen
    simp [hlen, hnil]
  · have hnil : ¬ ws = [] := fun h => hlen (by simp [h])
    simp [hlen, hnil]

/-- C10: the Zero-variant threshold masking of an image is idempotent:
applying `maskImageDataZero(src, lb, ub)` twice equals applying it once. -/
theorem maskImageDataZero_thresh_idempotent (src : Image) (lb ub : ℚ) :
    maskImageDataZero_thresh (maskImageDataZero_thresh src lb ub) lb ub =
      maskImageDataZero_thresh src lb ub := by
  unfold maskImageDataZero_thresh
  ext j k
  · rfl
  · rfl
  · simp only
    by_cases hjk : j < src.h ∧ k < src.w
    · simp only [hjk, if_true]
      set v := src.pix j k with hv
      by_cases hbad : (v.isnan || v.ltq lb || v.gtq ub) = true
      · simp only [hbad, if_true]
        by_cases h0 : ((FVal.val 0).isnan || (FVal.val 0).ltq lb || (FVal.val 0).gtq ub) = true
        · simp [h0]
        · simp [h0]
      · simp only [Bool.not_eq_true] at hbad
        simp [hbad]
    · simp [hjk]

/-- A value whose `isnan` flag is set is the NaN sentinel. -/
theorem FVal.isnan_iff (v : FVal) : v.isnan = true ↔ v = FVal.nan := by
  cases v <;> simp [FVal.isnan]

/-- C1: in the Nan-variant combined mask+threshold overload with output
recording, no error is raised for matching shapes and, per in-range pixel,
the checks run in the order mask, pre-existing NaN, threshold: a mask-true
pixel is set to NaN and recorded; an already-NaN pixel is recorded while its
value stays NaN; a remaining out-of-threshold pixel is set to NaN and
recorded; any other pixel and its output bit are unchanged. -/
theorem maskImageDataNan_mto_spec (src : Image) (mask : Mask) (lb ub : ℚ)
    (out : Mask) (hm : src.h = mask.h ∧ src.w = mask.w)
    (ho : src.h = out.h ∧ src.w = out.w) (j k : Nat)
    (hj : j < src.h) (hk : k < src.w) :
    (maskImageDataNan_mto src mask lb ub out).1 = none ∧
    (mask.pix j k = true →
      (maskImageDataNan_mto src mask lb ub out).2.1.pix j k = FVal.nan ∧
      (maskImageDataNan_mto src mask lb ub out).2.2.pix j k = true) ∧
    (mask.pix j k = false → (src.pix j k).isnan = true →
      (maskImageDataNan_mto src mask lb ub out).2.1.pix j k = FVal.nan ∧
      (maskImageDataNan_mto src mask lb ub out).2.2.pix j k = true) ∧
    (mask.pix j k = false → (src.pix j k).isnan = false →
      ((src.pix j k).ltq lb || (src.pix j k).gtq ub) = true →
      (maskImageDataNan_mto src mask lb ub out).2.1.pix j k = FVal.nan ∧
      (maskImageDataNan_mto src mask lb ub out).2.2.pix j k = true) ∧
    (mask.pix j k = false → (src.pix j k).isnan = false →
      ((src.pix j k).ltq lb || (src.pix j k).gtq ub) = false →
      (maskImageDataNan_mto src mask lb ub out).2.1.pix j k = src.pix j k ∧
      (maskImageDataNan_mto src mask lb ub out).2.2.pix j k = out.pix j k) := by
  unfold maskImageDataNan_mto
  rw [if_neg (not_not_intro hm), if_neg (not_not_intro ho)]
  have hjk : j < src.h ∧ k < src.w := ⟨hj, hk⟩
  refine ⟨rfl, ?_, ?_, ?_, ?_⟩
  · intro hmask
    constructor <;> simp [hjk, hmask]
  · intro hmask hnan
    have hv : src.pix j k = FVal.nan := (FVal.isnan_iff _).mp hnan
    constructor <;> simp [hjk, hmask, hnan, hv, FVal.isnan]
  · intro hmask hnan hthr
    constructor <;> simp [hjk, hmask, hnan, hthr]
  · intro hmask hnan hthr
    constructor <;> simp [hjk, hmask, hnan, hthr]

/-- Witness for C1, the spec's example: image values (5, 50), mask
(true, false), thresholds 0 and 10, output initially all false; both pixels
end NaN and both output bits end true. -/
theorem maskImageDataNan_mto_spec_witness :
    (maskImageDataNan_mto exImg12 exMask12 0 10 exOut12).2.1.pix 0 0 = FVal.nan ∧
    (maskImageDataNan_mto exImg12 exMask12 0 10 exOut12).2.2.pix 0 0 = true ∧
    (maskImageDataNan_mto exImg12 exMask12 0 10 exOut12).2.1.pix 0 1 = FVal.nan ∧
    (maskImageDataNan_mto exImg12 exMask12 0 10 exOut12).2.2.pix 0 1 = true := by
  have h0 := maskImageDataNan_mto_spec exImg12 exMask12 0 10 exOut12
    (by decide) (by decide) 0 0 (by decide) (by decide)
  have h1 := maskImageDataNan_mto_spec exImg12 exMask12 0 10 exOut12
    (by decide) (by decide) 0 1 (by decide) (by decide)
  have ha := h0.2.1 (by decide)
  have hb := h1.2.2.2.1 (by decide) (by decide) (by decide)
  exact ⟨ha.1, ha.2, hb.1, hb.2⟩

/-- C7: for matching shapes, the Zero-variant mask-only overload zeroes a
pixel where the mask is true or the pixel is NaN and keeps every other pixel,
while the Nan-variant mask-only overload writes NaN exactly where the mask is
true and leaves every mask-false pixel (NaN or not) unchanged. -/
theorem mask_only_variants_spec (src : Image) (mask : Mask)
    (hm : src.h = mask.h ∧ src.w = mask.w) (j k : Nat)
    (hj : j < src.h) (hk : k < src.w) :
    ((maskImageDataZero_mask src mask).1 = none ∧
     (mask.pix j k = true ∨ (src.pix j k).isnan = true →
       (maskImageDataZero_mask src mask).2.pix j k = FVal.val 0) ∧
     (mask.pix j k = false → (src.pix j k).isnan = false →
       (maskImageDataZero_mask src mask).2.pix j k = src.pix j k)) ∧
    ((maskImageDataNan_mask src mask).1 = none ∧
     (mask.pix j k = true →
       (maskImageDataNan_mask src mask).2.pix j k = FVal.nan) ∧
     (mask.pix j k = false →
       (maskImageDataNan_mask src mask).2.pix j k = src.pix j k)) := by
  have hjk : j < src.h ∧ k < src.w := ⟨hj, hk⟩
  constructor
  · unfold maskImageDataZero_mask
    rw [if_neg (not_not_intro hm)]
    refine ⟨rfl, ?_, ?_⟩
    · intro hcase
      rcases hcase with hmask | hnan
      · simp [hjk, hmask]
      · simp [hjk, hnan]
    · intro hmask hnan
      simp [hjk, hmask, hnan]
  · unfold maskImageDataNan_mask
    rw [if_neg (not_not_intro hm)]
    refine ⟨rfl, ?_, ?_⟩
    · intro hmask
      simp [hjk, hmask]
    · intro hmask
      simp [hjk, hmask]

/-- Witness for C7 at the example 1x2 buffers: the masked column is zeroed by
the Zero variant and NaN-ed by the Nan variant; the unmasked finite column is
kept by both. -/
theorem mask_only_variants_spec_witness :
    (maskImageDataZero_mask exImg12 exMask12).2.pix 0 0 = FVal.val 0 ∧
    (maskImageDataNan_mask exImg12 exMask12).2.pix 0 0 = FVal.nan ∧
    (maskImageDataZero_mask exImg12 exMask12).2.pix 0 1 = FVal.val 50 ∧
    (maskImageDataNan_mask exImg12 exMask12).2.pix 0 1 = FVal.val 50 := by
  have h0 := mask_only_variants_spec exImg12 exMask12 (by decide) 0 0
    (by decide) (by decide)
  have h1 := mask_only_variants_spec exImg12 exMask12 (by decide) 0 1
    (by decide) (by decide)
  refine ⟨h0.1.2.1 (Or.inl (by decide)), h0.2.2.1 (by decide), ?_, ?_⟩
  · have := h1.1.2.2 (by decide) (by decide)
    rw [this]; decide
  · have := h1.2.2.2 (by decide)
    rw [this]; decide

/-- C2: stack-wide nanmean, parallel path.  For a non-empty selection the
keep-variant succeeds and every output pixel is the exact arithmetic mean of
the non-NaN values among the selected frames, NaN when all of them are NaN;
the no-selection variant computes the same over all frames. -/
theorem nanmean_stack_spec (src : Stack) (keep : List Nat) (hk : keep ≠ []) :
    (∃ img, nanmeanImageArrayKeep src keep = Except.ok img ∧
      ∀ j k, img.pix j k =
        filterMean (keep.map fun i => src.pix i j k)) ∧
    (∀ j k, (nanmeanImageArrayAll src).pix j k =
      filterMean ((List.range src.n).map fun i => src.pix i j k)) := by
  have hke : keep.isEmpty = false := by
    cases keep with
    | nil => exact absurd rfl hk
    | cons a l => rfl
  constructor
  · refine ⟨nanmeanImageArrayImp src keep, ?_, ?_⟩
    · simp [nanmeanImageArrayKeep, hke]
    · intro j k
      rw [nanmeanImageArrayImp_pix]
      simp [hke]
  · intro j k
    rw [nanmeanImageArrayAll, nanmeanImageArrayImp_pix]
    simp

/-- Witness for C2, the spec's example: frames (1, NaN, 3) average to 2 over
all frames, and keeping only the NaN frame yields NaN. -/
theorem nanmean_stack_spec_witness :
    (nanmeanImageArrayAll exStack3).pix 0 0 = FVal.val 2 ∧
    (nanmeanImageArrayImp exStack3 [1]).pix 0 0 = FVal.nan := by
  have h := nanmean_stack_spec exStack3 [0, 1, 2] (by decide)
  have hall := h.2 0 0
  constructor
  · rw [hall]
    have : (List.range exStack3.n).map (fun i => exStack3.pix i 0 0) =
        [FVal.val 1, FVal.nan, FVal.val 3] := by decide
    rw [this]
    simp [filterMean, FVal.isnan, FVal.toq]
    norm_num
  · have : (nanmeanImageArrayImp exStack3 [1]).pix 0 0 =
        filterMean ([1].map fun i => exStack3.pix i 0 0) := by
      rw [nanmeanImageArrayImp_pix]
      simp
    rw [this]
    simp [exStack3, filterMean, FVal.isnan]

/-- C4: an empty keep raises an invalid-argument error on the parallel path
of stack-wide nanmean, while any non-empty keep succeeds there; the
sequential fallback accepts an empty keep and yields NaN at every pixel. -/
theorem nanmean_keep_empty_paths (src : Stack) :
    nanmeanImageArrayKeep src [] = Except.error "keep cannot be empty!" ∧
    (∀ keep : List Nat, keep ≠ [] →
      ∃ img, nanmeanImageArrayKeep src keep = Except.ok img) ∧
    (∀ j k, (nanmeanImageArrayKeepSeq src []).pix j k = FVal.nan) := by
  refine ⟨rfl, ?_, ?_⟩
  · intro keep hk
    have hke : keep.isEmpty = false := by
      cases keep with
      | nil => exact absurd rfl hk
      | cons a l => rfl
    exact ⟨nanmeanImageArrayImp src keep, by simp [nanmeanImageArrayKeep, hke]⟩
  · intro j k
    simp [nanmeanImageArrayKeepSeq, filterMean]

/-- Witness for C4 at the example stack: the parallel path rejects the empty
keep, accepts a singleton keep, and the sequential fallback returns NaN. -/
theorem nanmean_keep_empty_paths_witness :
    nanmeanImageArrayKeep exStack3 [] = Except.error "keep cannot be empty!" ∧
    (∃ img, nanmeanImageArrayKeep exStack3 [0] = Except.ok img) ∧
    (nanmeanImageArrayKeepSeq exStack3 []).pix 0 0 = FVal.nan := by
  have h := nanmean_keep_empty_paths exStack3
  exact ⟨h.1, h.2.1 [0] (by decide), h.2.2 0 0⟩

/-- C3: pairwise nanmean raises a shape-mismatch error on unequal shapes and
otherwise returns the image whose pixels follow the pairwise rule: both NaN
gives NaN, exactly one NaN gives the other value unchanged, and two finite
values give their exact arithmetic mean. -/
theorem nanmean_pairwise_spec (a b : Image) :
    (¬ (a.h = b.h ∧ a.w = b.w) →
      nanmeanTwoImages a b = Except.error "Images have different shapes") ∧
    (a.h = b.h ∧ a.w = b.w →
      ∃ img, nanmeanTwoImages a b = Except.ok img ∧
        ∀ j k,
          (a.pix j k = FVal.nan → b.pix j k = FVal.nan →
            img.pix j k = FVal.nan) ∧
          (∀ y : ℚ, a.pix j k = FVal.nan → b.pix j k = FVal.val y →
            img.pix j k = FVal.val y) ∧
          (∀ x : ℚ, a.pix j k = FVal.val x → b.pix j k = FVal.nan →
            img.pix j k = FVal.val x) ∧
          (∀ x y : ℚ, a.pix j k = FVal.val x → b.pix j k = FVal.val y →
            img.pix j k = FVal.val ((x + y) / 2))) := by
  constructor
  · intro hne
    simp [nanmeanTwoImages, hne]
  · intro hsh
    refine ⟨_, by rw [nanmeanTwoImages, if_neg (not_not_intro hsh)], ?_⟩
    intro j k
    refine ⟨?_, ?_, ?_, ?_⟩
    · intro ha hb
      simp [ha, hb, FVal.isnan]
    · intro y ha hb
      simp [ha, hb, FVal.isnan]
    · intro x ha hb
      simp [ha, hb, FVal.isnan]
    · intro x y ha hb
      simp only [ha, hb, FVal.isnan, Bool.and_self, Bool.false_and,
        if_false, FVal.add, FVal.mul]
      norm_num
      ring_nf

/-- Witness for C3, the spec's examples on 1x1 images: nanmean(2, 4) = 3,
nanmean(5, NaN) = 5, nanmean(NaN, NaN) = NaN. -/
theorem nanmean_pairwise_spec_witness :
    (∃ img, nanmeanTwoImages (exImg1 2) (exImg1 4) = Except.ok img ∧
      img.pix 0 0 = FVal.val 3) ∧
    (∃ img, nanmeanTwoImages (exImg1 5) exImg1Nan = Except.ok img ∧
      img.pix 0 0 = FVal.val 5) ∧
    (∃ img, nanmeanTwoImages exImg1Nan exImg1Nan = Except.ok img ∧
      img.pix 0 0 = FVal.nan) := by
  have h1 := (nanmean_pairwise_spec (exImg1 2) (exImg1 4)).2 (by decide)
  have h2 := (nanmean_pairwise_spec (exImg1 5) exImg1Nan).2 (by decide)
  have h3 := (nanmean_pairwise_spec exImg1Nan exImg1Nan).2 (by decide)
  obtain ⟨i1, e1, p1⟩ := h1
  obtain ⟨i2, e2, p2⟩ := h2
  obtain ⟨i3, e3, p3⟩ := h3
  refine ⟨⟨i1, e1, ?_⟩, ⟨i2, e2, ?_⟩, ⟨i3, e3, ?_⟩⟩
  · have := (p1 0 0).2.2.2 2 4 (by decide) (by decide)
    rw [this]; norm_num
  · exact (p2 0 0).2.2.1 5 (by decide) (by decide)
  · exact (p3 0 0).1 (by decide) (by decide)

/-- C5: every fallible mutating kernel validates before writing: whenever one
of them reports an error, the buffers it would mutate come back exactly as
they were passed in. -/
theorem error_leaves_buffers_unchanged :
    (∀ (src data : Image) (count : Nat) (e : String),
      (movingAvgImageData src data count).1 = some e →
      (movingAvgImageData src data count).2 = src) ∧
    (∀ (src data : Stack) (count : Nat) (e : String),
      (movingAvgImageDataStack src data count).1 = some e →
      (movingAvgImageDataStack src data count).2 = src) ∧
    (∀ (src : Image) (mask : Mask) (lb ub : ℚ) (out : Mask) (e : String),
      (maskImageDataZero_mto src mask lb ub out).1 = some e →
      (maskImageDataZero_mto src mask lb ub out).2 = (src, out)) ∧
    (∀ (src : Image) (mask : Mask) (lb ub : ℚ) (out : Mask) (e : String),
      (maskImageDataNan_mto src mask lb ub out).1 = some e →
      (maskImageDataNan_mto src mask lb ub out).2 = (src, out)) ∧
    (∀ (src : Image) (mask : Mask) (e : String),
      (maskImageDataZero_mask src mask).1 = some e →
      (maskImageDataZero_mask src mask).2 = src) ∧
    (∀ (src : Image) (mask : Mask) (e : String),
      (maskImageDataNan_mask src mask).1 = some e →
      (maskImageDataNan_mask src mask).2 = src) ∧
    (∀ (src gain offset : Image) (e : String),
      (correctImageData src gain offset).1 = some e →
      (correctImageData src gain offset).2 = src) ∧
    (∀ (src gain offset : Stack) (e : String),
      (correctImageDataStack src gain offset).1 = some e →
      (correctImageDataStack src gain offset).2 = src) := by
  refine ⟨?_, ?_, ?_, ?_, ?_, ?_, ?_, ?_⟩
  · intro src data count e
    unfold movingAvgImageData
    split
    · intro _; rfl
    · split
      · intro _; rfl
      · intro h; exact Option.noConfusion h
  · intro src data count e
    unfold movingAvgImageDataStack
    split
    · intro _; rfl
    · split
      · intro _; rfl
      · intro h; exact Option.noConfusion h
  · intro src mask lb ub out e
    unfold maskImageDataZero_mto
    split
    · intro _; rfl
    · split
      · intro _; rfl
      · intro h; exact Option.noConfusion h
  · intro src mask lb ub out e
    unfold maskImageDataNan_mto
    split
    · intro _; rfl
    · split
      · intro _; rfl
      · intro h; exact Option.noConfusion h
  · intro src mask e
    unfold maskImageDataZero_mask
    split
    · intro _; rfl
    · intro h; exact Option.noConfusion h
  · intro src mask e
    unfold maskImageDataNan_mask
    split
    · intro _; rfl
    · intro h; exact Option.noConfusion h
  · intro src gain offset e
    unfold correctImageData
    split
    · intro _; rfl
    · split
      · intro _; rfl
      · intro h; exact Option.noConfusion h
  · intro src gain offset e
    unfold correctImageDataStack
    split
    · intro _; rfl
    · split
      · intro _; rfl
      · intro h; exact Option.noConfusion h

/-- Witness for C5: a zero count makes the moving average error out with the
1x1 buffers returned untouched, and a 1x1 source with a 1x2 mask makes the
Zero-variant mask kernel error out with the source returned untouched. -/
theorem error_leaves_buffers_unchanged_witness :
    (movingAvgImageData (exImg1 0) (exImg1 2) 0).2 = exImg1 0 ∧
    (maskImageDataZero_mask (exImg1 5) exMask12).2 = exImg1 5 := by
  constructor
  · exact error_leaves_buffers_unchanged.1 (exImg1 0) (exImg1 2) 0
      "count cannot be zero" rfl
  · exact error_leaves_buffers_unchanged.2.2.2.2.1 (exImg1 5) exMask12
      "Image and mask have different shapes" rfl

/-- C6: the parallel (blocked-range) and sequential (whole-array) code paths
agree: exactly, per in-range element, for the stack NaN-to-zero and
threshold-Nan masking kernels, and exactly (hence within any tolerance), per
output pixel, for the stack-wide nanmean with or without a selection. -/
theorem parallel_sequential_equiv :
    (∀ (src : Stack) (i j k : Nat), i < src.n → j < src.h → k < src.w →
      (maskImageDataZeroStack src).pix i j k =
        (maskImageDataZeroStackSeq src).pix i j k) ∧
    (∀ (src : Stack) (lb ub : ℚ) (i j k : Nat),
      i < src.n → j < src.h → k < src.w →
      (maskImageDataNanThreshStack src lb ub).pix i j k =
        (maskImageDataNanThreshStackSeq src lb ub).pix i j k) ∧
    (∀ (src : Stack) (j k : Nat),
      (nanmeanImageArrayAll src).pix j k =
        (nanmeanImageArrayAllSeq src).pix j k) ∧
    (∀ (src : Stack) (keep : List Nat) (img : Image),
      nanmeanImageArrayKeep src keep = Except.ok img →
      ∀ j k, img.pix j k = (nanmeanImageArrayKeepSeq src keep).pix j k) := by
  refine ⟨?_, ?_, ?_, ?_⟩
  · intro src i j k hi hj hk
    have hijk : i < src.n ∧ j < src.h ∧ k < src.w := ⟨hi, hj, hk⟩
    simp only [maskImageDataZeroStack, maskImageDataZeroStackSeq, xtFilterAssign,
      if_pos hijk]
  · intro src lb ub i j k hi hj hk
    have hijk : i < src.n ∧ j < src.h ∧ k < src.w := ⟨hi, hj, hk⟩
    simp only [maskImageDataNanThreshStack, maskImageDataNanThreshStackSeq,
      xtFilterAssign, if_pos hijk]
    cases hv : src.pix i j k with
    | nan => simp [FVal.isnan, FVal.ltq, FVal.gtq]
    | val q => simp [FVal.isnan]
  · intro src j k
    rw [nanmeanImageArrayAll, nanmeanImageArrayImp_pix]
    simp [nanmeanImageArrayAllSeq]
  · intro src keep img hok j k
    unfold nanmeanImageArrayKeep at hok
    by_cases hke : keep.isEmpty = true
    · rw [if_pos hke] at hok
      exact Except.noConfusion hok
    · rw [if_neg hke] at hok
      have himg : nanmeanImageArrayImp src keep = img := by
        injection hok
      rw [← himg, nanmeanImageArrayImp_pix]
      have hke' : keep.isEmpty = false := by
        simpa using hke
      simp [hke', nanmeanImageArrayKeepSeq]

/-- Witness for C6 at the example stack: both paths agree on the NaN frame of
the NaN-to-zero kernel, on an out-of-threshold element of the threshold
kernel, and on the nanmean output pixel. -/
theorem parallel_sequential_equiv_witness :
    (maskImageDataZeroStack exStack3).pix 1 0 0 =
      (maskImageDataZeroStackSeq exStack3).pix 1 0 0 ∧
    (maskImageDataNanThreshStack exStack3 0 2).pix 2 0 0 =
      (maskImageDataNanThreshStackSeq exStack3 0 2).pix 2 0 0 ∧
    (nanmeanImageArrayAll exStack3).pix 0 0 =
      (nanmeanImageArrayAllSeq exStack3).pix 0 0 := by
  exact ⟨parallel_sequential_equiv.1 exStack3 1 0 0 (by decide) (by decide)
          (by decide),
         parallel_sequential_equiv.2.1 exStack3 0 2 2 0 0 (by decide)
          (by decide) (by decide),
         parallel_sequential_equiv.2.2.1 exStack3 0 0⟩

/-- C8: for a nonzero count and matching shapes, the moving average succeeds
and updates each in-range element to `avg + (newFrame - avg) / count`, for
both the Image and the ImageArray overloads; a NaN in either operand
propagates into the average; and feeding frames 2, 4, 6 with counts 1, 2, 3
from an initial average of 0 yields the running means 2, 3, 4. -/
theorem movingAvg_spec :
    (∀ (src data : Image) (count : Nat), count ≠ 0 →
      src.h = data.h ∧ src.w = data.w →
      (movingAvgImageData src data count).1 = none ∧
      ∀ j k, j < src.h → k < src.w →
        ((∀ a d : ℚ, src.pix j k = FVal.val a → data.pix j k = FVal.val d →
          (movingAvgImageData src data count).2.pix j k =
            FVal.val (a + (d - a) / (count : ℚ))) ∧
         (data.pix j k = FVal.nan →
          (movingAvgImageData src data count).2.pix j k = FVal.nan) ∧
         (src.pix j k = FVal.nan →
          (movingAvgImageData src data count).2.pix j k = FVal.nan))) ∧
    (∀ (src data : Stack) (count : Nat), count ≠ 0 →
      src.n = data.n ∧ src.h = data.h ∧ src.w = data.w →
      (movingAvgImageDataStack src data count).1 = none ∧
      ∀ i j k, i < src.n → j < src.h → k < src.w →
        ∀ a d : ℚ, src.pix i j k = FVal.val a → data.pix i j k = FVal.val d →
          (movingAvgImageDataStack src data count).2.pix i j k =
            FVal.val (a + (d - a) / (count : ℚ))) ∧
    ((movingAvgImageData (exImg1 0) (exImg1 2) 1).2.pix 0 0 = FVal.val 2 ∧
     (movingAvgImageData (movingAvgImageData (exImg1 0) (exImg1 2) 1).2
        (exImg1 4) 2).2.pix 0 0 = FVal.val 3 ∧
     (movingAvgImageData (movingAvgImageData (movingAvgImageData (exImg1 0)
        (exImg1 2) 1).2 (exImg1 4) 2).2 (exImg1 6) 3).2.pix 0 0 =
       FVal.val 4) := by
  have himg : ∀ (src data : Image) (count : Nat), count ≠ 0 →
      src.h = data.h ∧ src.w = data.w →
      (movingAvgImageData src data count).1 = none ∧
      ∀ j k, j < src.h → k < src.w →
        ((∀ a d : ℚ, src.pix j k = FVal.val a → data.pix j k = FVal.val d →
          (movingAvgImageData src data count).2.pix j k =
            FVal.val (a + (d - a) / (count : ℚ))) ∧
         (data.pix j k = FVal.nan →
          (movingAvgImageData src data count).2.pix j k = FVal.nan) ∧
         (src.pix j k = FVal.nan →
          (movingAvgImageData src data count).2.pix j k = FVal.nan)) := by
    intro src data count hc hs
    have hcq : (count : ℚ) ≠ 0 := Nat.cast_ne_zero.mpr hc
    constructor
    · unfold movingAvgImageData
      rw [if_neg hc, if_neg (not_not_intro hs)]
    · intro j k hj hk
      have hjk : j < src.h ∧ k < src.w := ⟨hj, hk⟩
      refine ⟨?_, ?_, ?_⟩
      · intro a d ha hd
        unfold movingAvgImageData
        rw [if_neg hc, if_neg (not_not_intro hs)]
        simp [hjk, ha, hd, FVal.sub, FVal.divq, FVal.add, hcq]
      · intro hd
        unfold movingAvgImageData
        rw [if_neg hc, if_neg (not_not_intro hs)]
        cases hsv : src.pix j k with
        | nan => simp [hjk, hd, hsv, FVal.sub, FVal.divq, FVal.add]
        | val a => simp [hjk, hd, hsv, FVal.sub, FVal.divq, FVal.add]
      · intro hsv
        unfold movingAvgImageData
        rw [if_neg hc, if_neg (not_not_intro hs)]
        cases hdv : data.pix j k with
        | nan => simp [hjk, hdv, hsv, FVal.sub, FVal.divq, FVal.add]
        | val d => simp [hjk, hdv, hsv, FVal.sub, FVal.divq, FVal.add]
  refine ⟨himg, ?_, ?_⟩
  · intro src data count hc hs
    have hcq : (count : ℚ) ≠ 0 := Nat.cast_ne_zero.mpr hc
    constructor
    · unfold movingAvgImageDataStack
      rw [if_neg hc, if_neg (not_not_intro hs)]
    · intro i j k hi hj hk a d ha hd
      have hijk : i < src.n ∧ j < src.h ∧ k < src.w := ⟨hi, hj, hk⟩
      unfold movingAvgImageDataStack
      rw [if_neg hc, if_neg (not_not_intro hs)]
      simp [hijk, ha, hd, FVal.sub, FVal.divq, FVal.add, hcq]
  · have h1 := ((himg (exImg1 0) (exImg1 2) 1 (by decide) (by decide)).2 0 0
      (by decide) (by decide)).1 0 2 rfl rfl
    have e1 : (movingAvgImageData (exImg1 0) (exImg1 2) 1).2.pix 0 0 =
        FVal.val 2 := by
      rw [h1]; norm_num
    have hsh2 : (movingAvgImageData (exImg1 0) (exImg1 2) 1).2.h = 1 ∧
        (movingAvgImageData (exImg1 0) (exImg1 2) 1).2.w = 1 := by
      constructor <;> rfl
    have h2 := ((himg (movingAvgImageData (exImg1 0) (exImg1 2) 1).2
      (exImg1 4) 2 (by decide) (by exact ⟨rfl, rfl⟩)).2 0 0
      (by rw [hsh2.1]; decide) (by rw [hsh2.2]; decide)).1 2 4 e1 rfl
    have e2 : (movingAvgImageData (movingAvgImageData (exImg1 0) (exImg1 2)
        1).2 (exImg1 4) 2).2.pix 0 0 = FVal.val 3 := by
      rw [h2]; norm_num
    have h3 := ((himg (movingAvgImageData (movingAvgImageData (exImg1 0)
      (exImg1 2) 1).2 (exImg1 4) 2).2 (exImg1 6) 3 (by decide)
      (by exact ⟨rfl, rfl⟩)).2 0 0 (by decide) (by decide)).1 3 6 e2 rfl
    have e3 : (movingAvgImageData (movingAvgImageData (movingAvgImageData
        (exImg1 0) (exImg1 2) 1).2 (exImg1 4) 2).2 (exImg1 6) 3).2.pix 0 0 =
        FVal.val 4 := by
      rw [h3]; norm_num
    exact ⟨e1, e2, e3⟩

/-- Witness for C8: one update step at concrete 1x1 buffers, average 0 fed
frame 2 with count 1, lands on 2. -/
theorem movingAvg_spec_witness :
    (movingAvgImageData (exImg1 0) (exImg1 2) 1).1 = none ∧
    (movingAvgImageData (exImg1 0) (exImg1 2) 1).2.pix 0 0 =
      FVal.val (0 + (2 - 0) / ((1 : Nat) : ℚ)) := by
  have h := movingAvg_spec.1 (exImg1 0) (exImg1 2) 1 (by decide) (by decide)
  exact ⟨h.1, (h.2 0 0 (by decide) (by decide)).1 0 2 rfl rfl⟩

/-- C9: for gain and offset constants matching the source shape, the combined
correction succeeds and replaces each in-range element by
`gain * (src - offset)` — the offset subtraction applied before the gain
multiplication — for both the Image and the ImageArray overloads; on finite
values this is exactly the rational `g * (s - o)`. -/
theorem correct_gain_offset_spec :
    (∀ (src gain offset : Image),
      src.h = gain.h ∧ src.w = gain.w →
      src.h = offset.h ∧ src.w = offset.w →
      (correctImageData src gain offset).1 = none ∧
      ∀ j k, j < src.h → k < src.w →
        ((correctImageData src gain offset).2.pix j k =
          (gain.pix j k).mul ((src.pix j k).sub (offset.pix j k)) ∧
         ∀ g s o : ℚ, gain.pix j k = FVal.val g → src.pix j k = FVal.val s →
           offset.pix j k = FVal.val o →
           (correctImageData src gain offset).2.pix j k =
             FVal.val (g * (s - o)))) ∧
    (∀ (src gain offset : Stack),
      src.n = gain.n ∧ src.h = gain.h ∧ src.w = gain.w →
      src.n = offset.n ∧ src.h = offset.h ∧ src.w = offset.w →
      (correctImageDataStack src gain offset).1 = none ∧
      ∀ i j k, i < src.n → j < src.h → k < src.w →
        ((correctImageDataStack src gain offset).2.pix i j k =
          (gain.pix i j k).mul ((src.pix i j k).sub (offset.pix i j k)) ∧
         ∀ g s o : ℚ, gain.pix i j k = FVal.val g →
           src.pix i j k = FVal.val s → offset.pix i j k = FVal.val o →
           (correctImageDataStack src gain offset).2.pix i j k =
             FVal.val (g * (s - o)))) := by
  constructor
  · intro src gain offset hg ho
    constructor
    · unfold correctImageData
      rw [if_neg (not_not_intro hg), if_neg (not_not_intro ho)]
    · intro j k hj hk
      have hjk : j < src.h ∧ k < src.w := ⟨hj, hk⟩
      constructor
      · unfold correctImageData
        rw [if_neg (not_not_intro hg), if_neg (not_not_intro ho)]
        simp [hjk]
      · intro g s o hgv hsv hov
        unfold correctImageData
        rw [if_neg (not_not_intro hg), if_neg (not_not_intro ho)]
        simp [hjk, hgv, hsv, hov, FVal.sub, FVal.mul]
  · intro src gain offset hg ho
    constructor
    · unfold correctImageDataStack
      rw [if_neg (not_not_intro hg), if_neg (not_not_intro ho)]
    · intro i j k hi hj hk
      have hijk : i < src.n ∧ j < src.h ∧ k < src.w := ⟨hi, hj, hk⟩
      constructor
      · unfold correctImageDataStack
        rw [if_neg (not_not_intro hg), if_neg (not_not_intro ho)]
        simp [hijk]
      · intro g s o hgv hsv hov
        unfold correctImageDataStack
        rw [if_neg (not_not_intro hg), if_neg (not_not_intro ho)]
        simp [hijk, hgv, hsv, hov, FVal.sub, FVal.mul]

/-- Witness for C9 at concrete 1x1 buffers: source 5 with gain 2 and offset 1
corrects to 2 * (5 - 1) = 8. -/
theorem correct_gain_offset_spec_witness :
    (correctImageData (exImg1 5) (exImg1 2) (exImg1 1)).1 = none ∧
    (correctImageData (exImg1 5) (exImg1 2) (exImg1 1)).2.pix 0 0 =
      FVal.val 8 := by
  have h := correct_gain_offset_spec.1 (exImg1 5) (exImg1 2) (exImg1 1)
    (by decide) (by decide)
  have hp := (h.2 0 0 (by decide) (by decide)).2 2 5 1 rfl rfl rfl
  refine ⟨h.1, ?_⟩
  rw [hp]; norm_num

end Foam
